import Mathlib

/-!
Verification development for the maplestory-price-tracker scripts.

The Python scripts are embedded shallowly:
* timestamps (ISO strings produced by `datetime.now().isoformat()`) are
  modelled as natural numbers counting seconds; equality of the ISO strings
  is equality of these numbers, and `t2 - t1 < timedelta` is truncated
  natural subtraction compared against the width in seconds (a negative
  Python timedelta is below any positive width, and truncated subtraction
  gives 0, which is also below any positive width);
* `collections.deque(maxlen=n)` is a list that drops its oldest (leftmost)
  elements once the length exceeds `n`;
* `int(statistics.mean(...))` / `int(np.median(...))` on lists of prices is
  floor division on naturals: for the price magnitudes the scripts handle
  (< 10^8, at most 2880 samples) the float sums are exact and the float
  quotient is far closer to the true rational than to the next integer, so
  truncation agrees with the exact floor;
* the `item_name` strings carried through the dictionaries are payload that
  never influences control flow and are omitted from the point records.
-/

namespace MapleTracker
/-! ### Deque semantics (`collections.deque` with `maxlen`) -/

/-- `deque.append` with a `maxlen` cap: append on the right, evict from the
left while over capacity. -/
def dequePush (cap : ℕ) (xs : List α) (x : α) : List α :=
  if cap < (xs ++ [x]).length then
    (xs ++ [x]).drop ((xs ++ [x]).length - cap)
  else xs ++ [x]

/-- `deque(iterable, maxlen=cap)`: keep only the last `cap` elements. -/
def dequeInit (cap : ℕ) (xs : List α) : List α :=
  if cap < xs.length then xs.drop (xs.length - cap) else xs

/-! ### Data points (`historical_price_tracker.py`)

A raw 30-minute sample (`add_raw_price_data`'s `price_point` dict) and an
aggregated bucket point (`aggregate_price_data_for_interval`'s emitted
dict). -/

structure RawPoint where
  timestamp : ℕ
  price : ℕ
deriving DecidableEq, Repr

structure AggPoint where
  timestamp : ℕ
  price : ℕ
  data_points : ℕ
deriving DecidableEq, Repr

/-! ### Interval configuration (`self.price_intervals`) -/

inductive IntervalType | oneHour | twelveHour | oneDay
deriving DecidableEq, Repr

/-- `interval` field, in seconds (`timedelta(hours=1)`, `hours=12`, `days=1`). -/
def interval_seconds : IntervalType → ℕ
  | .oneHour => 3600
  | .twelveHour => 43200
  | .oneDay => 86400

/-- `maxlen` field: 168 / 60 / 365. -/
def interval_maxlen : IntervalType → ℕ
  | .oneHour => 168
  | .twelveHour => 60
  | .oneDay => 365

/-- Capacity of the raw 30-minute buffers (`deque(maxlen=2880)`). -/
def raw_capacity : ℕ := 2880

/-! ### `add_raw_price_data` (lines 245-258)

The Python method builds the `price_point` dict from `datetime.now()` and
the given price and unconditionally calls `deque.append` on the item's raw
buffer (creating an empty `deque(maxlen=2880)` first if absent). -/

def add_raw_price_data (buf : List RawPoint) (t p : ℕ) : List RawPoint :=
  dequePush raw_capacity buf ⟨t, p⟩

/-- Minute bucket of a timestamp: two ISO timestamps fall in the same
minute-bucket iff their second counts agree after division by 60.  This is
spec vocabulary (the source has no such notion); it is used to state claims
about same-minute ingestion. -/
def minuteBucket (t : ℕ) : ℕ := t / 60

/-! ### `aggregate_price_data_for_interval` (lines 260-314)

A left fold over the raw buffer carrying `aggregated_data`,
`current_group` and `group_start_time`, then a final flush of the last
group. -/

/-- The aggregate emitted for a closed group: last member's timestamp,
integer mean of the members' prices, member count. -/
def summarize (g : List RawPoint) : AggPoint :=
  { timestamp := (g.getLastD ⟨0, 0⟩).timestamp
    price := (g.map (·.price)).sum / g.length
    data_points := g.length }

structure GroupState where
  acc : List AggPoint
  group : List RawPoint
  start : Option ℕ
deriving DecidableEq, Repr

def aggStep (width : ℕ) (st : GroupState) (dp : RawPoint) : GroupState :=
  match st.start with
  | none => { st with start := some dp.timestamp, group := [dp] }
  | some s =>
    if dp.timestamp - s < width then
      { st with group := st.group ++ [dp] }
    else
      { acc := st.acc ++ [summarize st.group]
        group := [dp]
        start := some dp.timestamp }

def aggregate_price_data_for_interval (width : ℕ) (raw : List RawPoint) :
    List AggPoint :=
  let st := raw.foldl (aggStep width) ⟨[], [], none⟩
  st.acc ++ (if st.group.isEmpty then [] else [summarize st.group])

/-! Claim-side greedy grouping, written from the spec's words: a new group
starts at the first sample; a sample joins the current group while
`sample.timestamp - group_start.timestamp < bucket_width`, otherwise the
group closes and a new group starts at that sample. -/

def specGroupsGo (width : ℕ) (g : List RawPoint) (gstart : ℕ) :
    List RawPoint → List (List RawPoint)
  | [] => [g]
  | dp :: rest =>
    if dp.timestamp - gstart < width then
      specGroupsGo width (g ++ [dp]) gstart rest
    else
      g :: specGroupsGo width [dp] dp.timestamp rest

def specGroups (width : ℕ) : List RawPoint → List (List RawPoint)
  | [] => []
  | dp :: rest => specGroupsGo width [dp] dp.timestamp rest

/-! ### `update_price_history` (lines 495-528)

Per interval (lines 508-523): if the recomputation produced anything, take
only its last aggregate (`latest_data = aggregated_data[-1]`); append it to
the interval's capped deque unless the persisted series' last entry has the
same timestamp (in which case nothing is written). -/

def update_interval_history (cap : ℕ) (hist : List AggPoint)
    (aggregated : List AggPoint) : List AggPoint :=
  match aggregated.getLast? with
  | none => hist
  | some latest =>
    if hist = [] ∨ hist.getLast?.map (·.timestamp) ≠ some latest.timestamp
    then dequePush cap hist latest
    else hist

/-- The per-item state the tracker persists: the raw 30-minute buffer and
one aggregated series per resolution. -/
structure ItemState where
  raw : List RawPoint
  hist1h : List AggPoint
  hist12h : List AggPoint
  hist1d : List AggPoint
deriving DecidableEq, Repr

def emptyItemState : ItemState := ⟨[], [], [], []⟩

/-- One invocation of `update_price_history` for one item: ingest the raw
sample, then recompute and merge each interval's aggregation. -/
def update_price_history (st : ItemState) (t p : ℕ) : ItemState :=
  let raw' := add_raw_price_data st.raw t p
  { raw := raw'
    hist1h := update_interval_history (interval_maxlen .oneHour) st.hist1h
      (aggregate_price_data_for_interval (interval_seconds .oneHour) raw')
    hist12h := update_interval_history (interval_maxlen .twelveHour) st.hist12h
      (aggregate_price_data_for_interval (interval_seconds .twelveHour) raw')
    hist1d := update_interval_history (interval_maxlen .oneDay) st.hist1d
      (aggregate_price_data_for_interval (interval_seconds .oneDay) raw') }

/-! ### Total price data (`historical_price_tracker.py`, lines 316-457)

`update_total_price_data` builds the run's total point dict (`timestamp`,
`total_price`, `average_price`, `item_count`), appends it to the 30-minute
raw deque (`maxlen=2880`) and recomputes each interval's aggregated chart
data from scratch.  The chart data (`format_total_price_chart_data`) is a
`labels` array plus two parallel data arrays (total and average); the label
strings are modelled by the timestamps they format. -/

structure TotalPricePoint where
  timestamp : ℕ
  total_price : ℕ
  average_price : ℕ
  item_count : ℕ
deriving DecidableEq, Repr

/-- The dict literal of lines 331-336, key by key (values coerced to their
numeric models; `timestamp` is the ISO string's model). -/
def TotalPricePoint.fields (p : TotalPricePoint) : List (String × ℕ) :=
  [("timestamp", p.timestamp), ("total_price", p.total_price),
   ("average_price", p.average_price), ("item_count", p.item_count)]

structure TotalAggPoint where
  timestamp : ℕ
  total_price : ℕ
  average_price : ℕ
  item_count : ℕ
  data_points : ℕ
deriving DecidableEq, Repr

/-- A closed total group's aggregate (lines 371-381 / 393-403): integer
means of the three numeric fields, last member's timestamp, member count. -/
def summarizeTotal (g : List TotalPricePoint) : TotalAggPoint :=
  { timestamp := (g.getLastD ⟨0, 0, 0, 0⟩).timestamp
    total_price := (g.map (·.total_price)).sum / g.length
    average_price := (g.map (·.average_price)).sum / g.length
    item_count := (g.map (·.item_count)).sum / g.length
    data_points := g.length }

structure TotalGroupState where
  acc : List TotalAggPoint
  group : List TotalPricePoint
  start : Option ℕ
deriving DecidableEq, Repr

def aggTotalStep (width : ℕ) (st : TotalGroupState) (dp : TotalPricePoint) :
    TotalGroupState :=
  match st.start with
  | none => { st with start := some dp.timestamp, group := [dp] }
  | some s =>
    if dp.timestamp - s < width then
      { st with group := st.group ++ [dp] }
    else
      { acc := st.acc ++ [summarizeTotal st.group]
        group := [dp]
        start := some dp.timestamp }

def aggregate_total_price_groups (width : ℕ) (raw : List TotalPricePoint) :
    List TotalAggPoint :=
  let st := raw.foldl (aggTotalStep width) ⟨[], [], none⟩
  st.acc ++ (if st.group.isEmpty then [] else [summarizeTotal st.group])

/-- Chart.js payload of `format_total_price_chart_data`: the `labels` array
and the two parallel data arrays.  No length cap is applied anywhere on
this path. -/
structure ChartData where
  labels : List ℕ
  total_data : List ℕ
  average_data : List ℕ
deriving DecidableEq, Repr

def format_total_price_chart_data (agg : List TotalAggPoint) : ChartData :=
  ⟨agg.map (·.timestamp), agg.map (·.total_price), agg.map (·.average_price)⟩

def aggregate_total_price_for_interval (width : ℕ)
    (raw : List TotalPricePoint) : ChartData :=
  format_total_price_chart_data (aggregate_total_price_groups width raw)

structure HistTotalState where
  total_price_raw_data : List TotalPricePoint
  hist1h : ChartData
  hist12h : ChartData
  hist1d : ChartData
deriving DecidableEq, Repr

def emptyHistTotalState : HistTotalState :=
  ⟨[], ⟨[], [], []⟩, ⟨[], [], []⟩, ⟨[], [], []⟩⟩

/-- `update_total_price_data` for one run: filter the run's prices to the
positive ones; if none remain, return without touching any state;
otherwise append the run's total point to the raw deque and recompute every
interval's chart data from that deque. -/
def update_total_price_data (t : ℕ) (all_current_prices : List ℕ)
    (st : HistTotalState) : HistTotalState :=
  let valid_prices := all_current_prices.filter (fun p => 0 < p)
  if valid_prices = [] then st
  else
    let point : TotalPricePoint :=
      ⟨t, valid_prices.sum, valid_prices.sum / valid_prices.length,
       valid_prices.length⟩
    let raw' := dequePush raw_capacity st.total_price_raw_data point
    { total_price_raw_data := raw'
      hist1h := aggregate_total_price_for_interval
        (interval_seconds .oneHour) raw'
      hist12h := aggregate_total_price_for_interval
        (interval_seconds .twelveHour) raw'
      hist1d := aggregate_total_price_for_interval
        (interval_seconds .oneDay) raw' }

/-! ### `total_price_aggregator.py` -/

/-- The total point dict of lines 175-180 (`average_price` is
`total_price // valid_items` when `valid_items > 0`, else 0). -/
def total_price_point (now total_price valid_items : ℕ) : TotalPricePoint :=
  ⟨now, total_price,
   if 0 < valid_items then total_price / valid_items else 0, valid_items⟩

structure AggTotalState where
  t1h : List TotalPricePoint
  t12h : List TotalPricePoint
  t1d : List TotalPricePoint
deriving DecidableEq, Repr

def emptyAggTotalState : AggTotalState := ⟨[], [], []⟩

/-- `should_update_total_price_interval` (lines 87-113): update when the
series is empty, or when at least the interval's width has elapsed since
its last entry (a negative elapsed time — truncated to 0 here — is below
any positive width, as in Python). -/
def should_update_total_price_interval (width now : ℕ)
    (hist : List TotalPricePoint) : Bool :=
  match hist.getLast? with
  | none => true
  | some last => width ≤ now - last.timestamp

/-- `update_total_price_history` (lines 168-195): with no valid data,
return the empty update list without touching state; otherwise append the
run's total point to each interval deque that is due. -/
def update_total_price_history (now : ℕ) (st : AggTotalState)
    (total_price valid_items : ℕ) : AggTotalState × List IntervalType :=
  if total_price = 0 ∨ valid_items = 0 then (st, [])
  else
    let point := total_price_point now total_price valid_items
    let s1 := should_update_total_price_interval
      (interval_seconds .oneHour) now st.t1h
    let s2 := should_update_total_price_interval
      (interval_seconds .twelveHour) now st.t12h
    let s3 := should_update_total_price_interval
      (interval_seconds .oneDay) now st.t1d
    (⟨if s1 then dequePush (interval_maxlen .oneHour) st.t1h point else st.t1h,
      if s2 then dequePush (interval_maxlen .twelveHour) st.t12h point else st.t12h,
      if s3 then dequePush (interval_maxlen .oneDay) st.t1d point else st.t1d⟩,
     (if s1 then [IntervalType.oneHour] else []) ++
     (if s2 then [IntervalType.twelveHour] else []) ++
     (if s3 then [IntervalType.oneDay] else []))

/-- `append_new_data_to_chart` (lines 245-289): append the point's label
and data values, then drop from the front whatever exceeds the interval's
`maxlen`. -/
def append_new_data_to_chart (cap : ℕ) (chart : ChartData)
    (p : TotalPricePoint) : ChartData :=
  let labels := chart.labels ++ [p.timestamp]
  let d0 := chart.total_data ++ [p.total_price]
  let d1 := chart.average_data ++ [p.average_price]
  if cap < labels.length then
    ⟨labels.drop (labels.length - cap), d0.drop (labels.length - cap),
     d1.drop (labels.length - cap)⟩
  else ⟨labels, d0, d1⟩

/-- The retention invariant on a per-item state: each resolution series is
within its configured cap. -/
def ItemState.capsOK (st : ItemState) : Prop :=
  st.hist1h.length ≤ interval_maxlen .oneHour ∧
  st.hist12h.length ≤ interval_maxlen .twelveHour ∧
  st.hist1d.length ≤ interval_maxlen .oneDay

/-- The retention invariant on the total-price aggregator's state. -/
def AggTotalState.capsOK (st : AggTotalState) : Prop :=
  st.t1h.length ≤ interval_maxlen .oneHour ∧
  st.t12h.length ≤ interval_maxlen .twelveHour ∧
  st.t1d.length ≤ interval_maxlen .oneDay

/-! ### Quote selection (`update_prices.py`)

Configuration of `GitHubActionsUpdater.__init__` (lines 57-67): this script
runs the strict profile — `iqr_multiplier = 1.0`, `minimum_data_points = 4`,
`minimum_price_threshold = 10000`, and the relative-filter ratios 10 / 20 /
20 / 50 / 30. -/

def iqr_multiplier : ℤ := 1
def minimum_data_points : ℕ := 4
def minimum_price_threshold : ℕ := 10000

/-- Four times `np.percentile(xs, q)` (default linear-interpolation
method), for `q` a multiple of 25.  On the sorted data the virtual
position is `q/100 * (n-1)`, whose fractional part is a quarter, so four
times the interpolated value `lo + frac * (hi - lo)` is the exact integer
`4*lo + (4*frac) * (hi - lo)`.  All quartile comparisons in the script are
modelled at this scale, which keeps the float arithmetic (exact at these
magnitudes) in integers. -/
def percentile_times4 (xs : List ℕ) (q : ℕ) : ℤ :=
  let s := xs.insertionSort (· ≤ ·)
  if s.length = 0 then 0
  else
    let pos4 : ℕ := q * (s.length - 1) / 25
    let i : ℕ := pos4 / 4
    let lo : ℤ := (s.getD i 0 : ℕ)
    let hi : ℤ := (s.getD (min (i + 1) (s.length - 1)) 0 : ℕ)
    4 * lo + (pos4 % 4 : ℕ) * (hi - lo)

/-- `detect_outliers_iqr` (lines 409-441): with fewer than
`minimum_data_points` quotes, or a zero IQR, everything is normal;
otherwise a quote is an outlier iff it falls outside
`[Q1 - k*IQR, Q3 + k*IQR]` (all four quantities compared at four times
scale; `k = iqr_multiplier = 1`).  The single Python loop partitions the
input in order; it is modelled by the two order-preserving filters. -/
def detect_outliers_iqr (prices : List ℕ) : List ℕ × List ℕ :=
  if prices.length < minimum_data_points then ([], prices)
  else
    let Q1 := percentile_times4 prices 25
    let Q3 := percentile_times4 prices 75
    if Q3 - Q1 = 0 then ([], prices)
    else
      let lower := Q1 - iqr_multiplier * (Q3 - Q1)
      let upper := Q3 + iqr_multiplier * (Q3 - Q1)
      (prices.filter (fun p => decide (4 * (p : ℤ) < lower ∨ upper < 4 * (p : ℤ))),
       prices.filter (fun p => decide (lower ≤ 4 * (p : ℤ) ∧ 4 * (p : ℤ) ≤ upper)))

/-- `int(np.median(prices))`: middle order statistic for odd length, the
truncated mean of the two middle ones for even length. -/
def np_median (xs : List ℕ) : ℕ :=
  let s := xs.insertionSort (· ≤ ·)
  if s.length % 2 = 1 then s.getD (s.length / 2) 0
  else (s.getD (s.length / 2 - 1) 0 + s.getD (s.length / 2) 0) / 2

/-- The status strings returned by `select_optimal_price`, as a tag type:
`normal` is the "7データ上下限フィルタリング正常価格" success string,
`fallbackPrevious` the "前回価格維持（全価格外れ値・7データ）" string,
`fallbackMedian` the "中央値使用（全価格外れ値・7データ）" string, and
`noData` the "価格データなし" string. -/
inductive PriceStatus
  | normal | fallbackPrevious | fallbackMedian | noData
deriving DecidableEq, Repr

/-- `select_optimal_price` (lines 443-482).  `previous_price` is `None` or
the parsed previous integer; the Python truthiness test
`previous_price and previous_price > self.minimum_price_threshold` is the
`pv ≠ 0 ∧ threshold < pv` condition. -/
def select_optimal_price (prices : List ℕ) (previous_price : Option ℕ) :
    Option ℕ × PriceStatus :=
  if prices = [] then (none, .noData)
  else
    let od := detect_outliers_iqr prices
    if od.2 = [] then
      match previous_price with
      | some pv =>
        if pv ≠ 0 ∧ minimum_price_threshold < pv then
          (some pv, .fallbackPrevious)
        else (some (np_median prices), .fallbackMedian)
      | none => (some (np_median prices), .fallbackMedian)
    else (od.2.min?, .normal)

/-- `excluded_count = len(outliers)` of line 475. -/
def select_excluded_count (prices : List ℕ) : ℕ :=
  (detect_outliers_iqr prices).1.length

/-! ### `advanced_outlier_removal` and its stages (lines 262-396)

Ratios from `__init__`: `median_min_ratio = 10`, `median_max_ratio = 20`,
`top3_min_ratio = 20`, `bottom3_max_ratio = 50`, `final_price_ratio = 30`. -/

/-- Threshold of `remove_relative_low_outliers` (lines 295-306): the max
of median/10, (top-3 average)/20 and the absolute minimum threshold. -/
def low_threshold (prices : List ℕ) : ℕ :=
  let s := prices.insertionSort (· ≤ ·)
  let median_price := s.getD (s.length / 2) 0
  let top3_avg := (s.drop (s.length - 3)).sum / 3
  max (max (median_price / 10) (top3_avg / 20)) minimum_price_threshold

def low_filtered (prices : List ℕ) : List ℕ :=
  prices.filter (fun p => low_threshold prices ≤ p)

def remove_relative_low_outliers (prices : List ℕ) : List ℕ :=
  if prices.length < 4 then prices
  else if 3 ≤ (low_filtered prices).length then low_filtered prices
  else prices

/-- Threshold of `remove_relative_high_outliers` (lines 321-332): the min
of median*20 and (bottom-3 average)*50. -/
def high_threshold (prices : List ℕ) : ℕ :=
  let s := prices.insertionSort (· ≤ ·)
  let median_price := s.getD (s.length / 2) 0
  let bottom3_avg := (s.take 3).sum / 3
  min (median_price * 20) (bottom3_avg * 50)

def high_filtered (prices : List ℕ) : List ℕ :=
  prices.filter (fun p => p ≤ high_threshold prices)

def remove_relative_high_outliers (prices : List ℕ) : List ℕ :=
  if prices.length < 4 then prices
  else if 3 ≤ (high_filtered prices).length then high_filtered prices
  else prices

/-- The bound test of `strict_iqr_filter` (lines 356-366), at four times
scale.  When `Q1 - 1*IQR` is negative the script replaces the lower bound
by `min(prices) * 0.8`, so the membership test becomes
`min*0.8 ≤ p ∧ p ≤ upper`; `min*0.8 ≤ p` is `4*min ≤ 5*p` exactly (the
float 0.8 rounding is irrelevant: every price is at least `min`, which
already exceeds `min*0.8`, so the adjusted lower bound excludes nothing
either way). -/
def strict_iqr_keeps (prices : List ℕ) (p : ℕ) : Bool :=
  let Q1 := percentile_times4 prices 25
  let Q3 := percentile_times4 prices 75
  let lower := Q1 - iqr_multiplier * (Q3 - Q1)
  let upper := Q3 + iqr_multiplier * (Q3 - Q1)
  if lower < 0 then
    decide (4 * ((prices.min?.getD 0 : ℕ) : ℤ) ≤ 5 * (p : ℤ) ∧
      4 * (p : ℤ) ≤ upper)
  else decide (lower ≤ 4 * (p : ℤ) ∧ 4 * (p : ℤ) ≤ upper)

def iqr_filtered (prices : List ℕ) : List ℕ :=
  prices.filter (strict_iqr_keeps prices)

def strict_iqr_filter (prices : List ℕ) : List ℕ :=
  if prices.length < 4 then prices
  else if percentile_times4 prices 75 - percentile_times4 prices 25 = 0 then
    prices
  else if 3 ≤ (iqr_filtered prices).length then iqr_filtered prices
  else prices

/-- `final_relative_check` (lines 374-396): when the max/min ratio exceeds
30 (`max/min > 30` is `30*min < max` exactly; `min = 0` gives the infinite
ratio), prices above `min*30` are dropped, but only if at least three
survive. -/
def final_filtered (prices : List ℕ) : List ℕ :=
  prices.filter (fun p => p ≤ prices.min?.getD 0 * 30)

def final_relative_check (prices : List ℕ) : List ℕ :=
  if prices.length < 3 then prices
  else if prices.min?.getD 0 = 0 ∨
      30 * prices.min?.getD 0 < prices.max?.getD 0 then
    if 3 ≤ (final_filtered prices).length then final_filtered prices
    else prices
  else prices

def advanced_outlier_removal (prices : List ℕ) : List ℕ :=
  if prices.length < 4 then prices
  else
    final_relative_check (strict_iqr_filter
      (remove_relative_high_outliers (remove_relative_low_outliers prices)))

/-! ### Loading persisted state (claim C9)

Reading one persisted JSON file has three outcomes: the file is absent
(`os.path.exists` false — the interval is skipped), it decodes and
converts cleanly to the expected shape, or reading it raises
(`json.JSONDecodeError`, or a shape that makes the conversion raise). -/

inductive FileRead (α : Type) | missing | failed | ok (data : α)
deriving DecidableEq, Repr

/-- Per-interval item map of a `history_{interval}.json` file (item id to
its persisted series). -/
structure PriceHistory where
  h1h : List (String × List AggPoint)
  h12h : List (String × List AggPoint)
  h1d : List (String × List AggPoint)
deriving DecidableEq, Repr

def emptyPriceHistory : PriceHistory := ⟨[], [], []⟩

/-- Installing one decoded file (lines 130-139): each item's series is
re-wrapped in a deque capped at the interval's `maxlen`.  At load time
`self.price_history` is empty, so setting the items of the file and
merging them coincide. -/
def install_aggregated (cap : ℕ) (data : List (String × List AggPoint)) :
    List (String × List AggPoint) :=
  data.map (fun kv => (kv.1, dequeInit cap kv.2))

/-- One iteration of `load_aggregated_data`'s loop: a missing file skips
the interval, a raised error propagates (`none`) to the single
`try`/`except` wrapped around the whole loop, and clean data is
installed. -/
def load_aggregated_step (cap : ℕ)
    (fr : FileRead (List (String × List AggPoint)))
    (cur : List (String × List AggPoint)) :
    Option (List (String × List AggPoint)) :=
  match fr with
  | .missing => some cur
  | .failed => none
  | .ok data => some (install_aggregated cap data)

structure PriceHistoryFiles where
  f1h : FileRead (List (String × List AggPoint))
  f12h : FileRead (List (String × List AggPoint))
  f1d : FileRead (List (String × List AggPoint))

/-- `load_aggregated_data` (lines 119-146): the intervals are read in
order 1hour, 12hour, 1day inside one `try`; the first raising file aborts
the remaining iterations, keeping whatever was already installed. -/
def load_aggregated_data (files : PriceHistoryFiles) (ph : PriceHistory) :
    PriceHistory :=
  match load_aggregated_step (interval_maxlen .oneHour) files.f1h ph.h1h with
  | none => ph
  | some h1 =>
    match load_aggregated_step (interval_maxlen .twelveHour) files.f12h
        ph.h12h with
    | none => { ph with h1h := h1 }
    | some h2 =>
      match load_aggregated_step (interval_maxlen .oneDay) files.f1d
          ph.h1d with
      | none => { ph with h1h := h1, h12h := h2 }
      | some h3 => { h1h := h1, h12h := h2, h1d := h3 }

/-- One file of the aggregator's `load_existing_total_price_history`
(lines 57-83): decode failures are caught per file (the series keeps its
initialized empty value); decoded entries that are not dicts carrying
`timestamp` and `total_price` (modelled as `none` entries) are dropped
individually; if nothing valid remains the series is left as it was. -/
def load_one_total_file (cap : ℕ)
    (fr : FileRead (List (Option TotalPricePoint)))
    (init : List TotalPricePoint) : List TotalPricePoint :=
  match fr with
  | .missing => init
  | .failed => init
  | .ok entries =>
    let valid := entries.filterMap id
    if valid = [] then init else dequeInit cap valid

structure TotalFiles where
  f1h : FileRead (List (Option TotalPricePoint))
  f12h : FileRead (List (Option TotalPricePoint))
  f1d : FileRead (List (Option TotalPricePoint))

/-- `load_existing_total_price_history`: each interval's file is processed
under its own `try`/`except`, so the files are independent. -/
def load_existing_total_price_history (files : TotalFiles)
    (st : AggTotalState) : AggTotalState :=
  { t1h := load_one_total_file (interval_maxlen .oneHour) files.f1h st.t1h
    t12h := load_one_total_file (interval_maxlen .twelveHour) files.f12h
      st.t12h
    t1d := load_one_total_file (interval_maxlen .oneDay) files.f1d st.t1d }

/-! ### Theorems -/

theorem dequePush_length_le (cap : ℕ) (xs : List α) (x : α)
    (h : xs.length ≤ cap) : (dequePush cap xs x).length ≤ cap := by
  unfold dequePush
  split <;> simp_all <;> omega

theorem dequeInit_length_le (cap : ℕ) (xs : List α) :
    (dequeInit cap xs).length ≤ cap := by
  unfold dequeInit
  split <;> simp_all <;> omega

theorem dequePush_of_lt (cap : ℕ) (xs : List α) (x : α)
    (h : xs.length + 1 ≤ cap) : dequePush cap xs x = xs ++ [x] := by
  unfold dequePush
  split <;> simp_all

theorem foldl_aggStep_eq (width : ℕ) (rest : List RawPoint) :
    ∀ (acc : List AggPoint) (g : List RawPoint) (s : ℕ), g ≠ [] →
    (let st := rest.foldl (aggStep width) ⟨acc, g, some s⟩
     st.acc ++ (if st.group.isEmpty then [] else [summarize st.group])) =
      acc ++ (specGroupsGo width g s rest).map summarize := by
  induction rest with
  | nil =>
    intro acc g s hg
    simp [specGroupsGo, List.isEmpty_iff, hg]
  | cons dp rest ih =>
    intro acc g s hg
    by_cases hjoin : dp.timestamp - s < width
    · have hstep : aggStep width ⟨acc, g, some s⟩ dp =
          ⟨acc, g ++ [dp], some s⟩ := by
        simp [aggStep, hjoin]
      simp only [List.foldl_cons, hstep, specGroupsGo, if_pos hjoin]
      exact ih acc (g ++ [dp]) s (by simp)
    · have hstep : aggStep width ⟨acc, g, some s⟩ dp =
          ⟨acc ++ [summarize g], [dp], some dp.timestamp⟩ := by
        simp [aggStep, hjoin]
      simp only [List.foldl_cons, hstep, specGroupsGo, if_neg hjoin]
      rw [ih (acc ++ [summarize g]) [dp] dp.timestamp (by simp)]
      simp

theorem aggregate_eq_specGroups (width : ℕ) (raw : List RawPoint) :
    aggregate_price_data_for_interval width raw =
      (specGroups width raw).map summarize := by
  cases raw with
  | nil => simp [aggregate_price_data_for_interval, specGroups]
  | cons dp rest =>
    unfold aggregate_price_data_for_interval specGroups
    have hstep : aggStep width ⟨[], [], none⟩ dp =
        ⟨[], [dp], some dp.timestamp⟩ := by
      simp [aggStep]
    simp only [List.foldl_cons, hstep]
    exact foldl_aggStep_eq width rest [] [dp] dp.timestamp (by simp)

/-- C5: Aggregation scans an item's raw buffer in time order grouping
greedily — a sample joins the current group iff its timestamp minus the
group's first timestamp is strictly less than the bucket width, otherwise
the group is emitted and a new group starts at that sample; each emitted
aggregate carries the last member's timestamp, the integer mean of the
members' prices, and the member count.  In particular raw samples at
t = 0, 10, 70 minutes with prices 100, 110, 200 and a 60-minute bucket
width yield exactly two groups: one averaging 105 labeled t = 10 and one
single-member group at t = 70. -/
theorem aggregation_is_greedy_grouping :
    (∀ (width : ℕ) (raw : List RawPoint),
      aggregate_price_data_for_interval width raw =
        (specGroups width raw).map (fun g =>
          { timestamp := (g.getLastD ⟨0, 0⟩).timestamp
            price := (g.map (·.price)).sum / g.length
            data_points := g.length })) ∧
    aggregate_price_data_for_interval 3600
        [⟨0, 100⟩, ⟨600, 110⟩, ⟨4200, 200⟩] =
      [⟨600, 105, 2⟩, ⟨4200, 200, 1⟩] := by
  constructor
  · intro width raw
    exact aggregate_eq_specGroups width raw
  · decide

/-! ### Small computation lemmas used by the two-run characterizations -/

theorem aggregate_singleton (width t p : ℕ) :
    aggregate_price_data_for_interval width [⟨t, p⟩] = [⟨t, p, 1⟩] := by
  simp [aggregate_price_data_for_interval, aggStep, summarize]

theorem aggregate_pair_join (width t1 t2 p1 p2 : ℕ) (h : t2 - t1 < width) :
    aggregate_price_data_for_interval width [⟨t1, p1⟩, ⟨t2, p2⟩] =
      [⟨t2, (p1 + p2) / 2, 2⟩] := by
  simp [aggregate_price_data_for_interval, aggStep, summarize, h]

theorem update_interval_history_push_empty (cap : ℕ) (x : AggPoint)
    (hcap : 1 ≤ cap) : update_interval_history cap [] [x] = [x] := by
  unfold update_interval_history
  simp [dequePush]
  omega

theorem update_interval_history_push_new (cap : ℕ) (hist : List AggPoint)
    (agg : List AggPoint) (latest : AggPoint)
    (hlast : agg.getLast? = some latest)
    (hts : hist.getLast?.map (·.timestamp) ≠ some latest.timestamp)
    (hlen : hist.length + 1 ≤ cap) :
    update_interval_history cap hist agg = hist ++ [latest] := by
  unfold update_interval_history
  rw [hlast]
  show (if hist = [] ∨ hist.getLast?.map (·.timestamp) ≠ some latest.timestamp
    then dequePush cap hist latest else hist) = hist ++ [latest]
  rw [if_pos (Or.inr hts)]
  exact dequePush_of_lt cap hist latest hlen

theorem update_interval_history_skip (cap : ℕ) (hist : List AggPoint)
    (agg : List AggPoint) (latest : AggPoint)
    (hlast : agg.getLast? = some latest)
    (hts : hist.getLast?.map (·.timestamp) = some latest.timestamp) :
    update_interval_history cap hist agg = hist := by
  unfold update_interval_history
  rw [hlast]
  have hne : ¬ hist = [] := by
    intro he
    rw [he] at hts
    simp at hts
  simp [hne, hts]

/-- C3 counterexample: starting from the empty state, run once at `t = 0`
with price 100, then again at `t = 0` (same ISO timestamp) with price 200.
The recomputed last group is the refined aggregate `⟨0, 150, 2⟩`, but the
persisted 1-hour series keeps its stale entry `⟨0, 100, 1⟩` — the code
skips the update instead of overwriting the last entry in place. -/
theorem tail_update_skips_instead_of_overwriting :
    (update_price_history (update_price_history emptyItemState 0 100) 0 200).hist1h
      = [⟨0, 100, 1⟩] ∧
    (aggregate_price_data_for_interval (interval_seconds .oneHour)
        (update_price_history (update_price_history emptyItemState 0 100) 0 200).raw).getLast?
      = some ⟨0, 150, 2⟩ ∧
    ([(⟨0, 100, 1⟩ : AggPoint)] : List AggPoint) ≠ [⟨0, 150, 2⟩] := by
  refine ⟨by decide, by decide, by decide⟩

/-- C3 amended: only the last group of the recomputation is considered; if
the persisted series' last entry has the same timestamp as the new group,
the new group is discarded and the series is left unchanged (it is not
overwritten with the refined aggregate); otherwise the new group is
appended (with cap eviction). -/
theorem tail_update_discard_or_append (cap : ℕ) (hist agg : List AggPoint)
    (latest : AggPoint) (hlast : agg.getLast? = some latest) :
    (hist.getLast?.map (·.timestamp) = some latest.timestamp →
      update_interval_history cap hist agg = hist) ∧
    (hist.getLast?.map (·.timestamp) ≠ some latest.timestamp →
      update_interval_history cap hist agg = dequePush cap hist latest) := by
  constructor
  · intro h
    exact update_interval_history_skip cap hist agg latest hlast h
  · intro h
    unfold update_interval_history
    rw [hlast]
    simp [h]

theorem tail_update_discard_or_append_witness :
    update_interval_history 168 [⟨0, 100, 1⟩] [⟨5, 105, 2⟩]
      = [⟨0, 100, 1⟩, ⟨5, 105, 2⟩] := by
  have h := (tail_update_discard_or_append 168 [⟨0, 100, 1⟩] [⟨5, 105, 2⟩]
    ⟨5, 105, 2⟩ (by decide)).2 (by decide)
  rw [h]
  decide

/-- C2 counterexample: two invocations with the identical quote (price 100)
inside the same one-hour bucket window, at `t = 0` and `t = 1` second.  The
second invocation appends a fresh raw sample carrying its own timestamp, so
the recomputed last group's timestamp differs from the persisted one and a
second entry is appended: the persisted series after invocation 2 is not
the series after invocation 1. -/
theorem second_pass_not_idempotent :
    (update_price_history (update_price_history emptyItemState 0 100) 1 100).hist1h
      ≠ (update_price_history emptyItemState 0 100).hist1h := by
  decide

/-- C2 amended: the pass is not idempotent.  With byte-identical quote
inputs, a second invocation inside the same bucket window at a later
timestamp `t2` appends the new raw sample and appends one additional entry
to each resolution series, carrying the second run's timestamp and the
refined average — rather than leaving the persisted series unchanged.  (The
series are unchanged only in the degenerate case where the two invocations
carry the exact same timestamp.) -/
theorem second_pass_appends_refined_entry (t1 t2 p : ℕ)
    (hlt : t1 < t2) (hwin : t2 - t1 < 3600) :
    (update_price_history emptyItemState t1 p).hist1h = [⟨t1, p, 1⟩] ∧
    (update_price_history (update_price_history emptyItemState t1 p) t2 p).raw
      = [⟨t1, p⟩, ⟨t2, p⟩] ∧
    (update_price_history (update_price_history emptyItemState t1 p) t2 p).hist1h
      = [⟨t1, p, 1⟩, ⟨t2, p, 2⟩] ∧
    (update_price_history (update_price_history emptyItemState t1 p) t2 p).hist12h
      = [⟨t1, p, 1⟩, ⟨t2, p, 2⟩] ∧
    (update_price_history (update_price_history emptyItemState t1 p) t2 p).hist1d
      = [⟨t1, p, 1⟩, ⟨t2, p, 2⟩] := by
  have hp2 : (p + p) / 2 = p := by omega
  have hraw1 : add_raw_price_data [] t1 p = [⟨t1, p⟩] := by
    simp [add_raw_price_data, dequePush, raw_capacity]
  have hs1 : update_price_history emptyItemState t1 p =
      ⟨[⟨t1, p⟩], [⟨t1, p, 1⟩], [⟨t1, p, 1⟩], [⟨t1, p, 1⟩]⟩ := by
    unfold update_price_history
    rw [show emptyItemState.raw = [] from rfl, hraw1]
    simp only [interval_seconds, interval_maxlen, aggregate_singleton]
    rw [show emptyItemState.hist1h = [] from rfl,
        show emptyItemState.hist12h = [] from rfl,
        show emptyItemState.hist1d = [] from rfl]
    rw [update_interval_history_push_empty 168 _ (by omega),
        update_interval_history_push_empty 60 _ (by omega),
        update_interval_history_push_empty 365 _ (by omega)]
  have hraw2 : add_raw_price_data [⟨t1, p⟩] t2 p = [⟨t1, p⟩, ⟨t2, p⟩] := by
    simp [add_raw_price_data, dequePush, raw_capacity]
  have hwin12 : t2 - t1 < 43200 := by omega
  have hwin1d : t2 - t1 < 86400 := by omega
  have hts : ([(⟨t1, p, 1⟩ : AggPoint)].getLast?.map (·.timestamp))
      ≠ some ((⟨t2, (p + p) / 2, 2⟩ : AggPoint).timestamp) := by
    simp
    omega
  have hs2 : update_price_history
      (⟨[⟨t1, p⟩], [⟨t1, p, 1⟩], [⟨t1, p, 1⟩], [⟨t1, p, 1⟩]⟩ : ItemState) t2 p =
      ⟨[⟨t1, p⟩, ⟨t2, p⟩], [⟨t1, p, 1⟩, ⟨t2, p, 2⟩], [⟨t1, p, 1⟩, ⟨t2, p, 2⟩],
       [⟨t1, p, 1⟩, ⟨t2, p, 2⟩]⟩ := by
    unfold update_price_history
    dsimp only
    rw [hraw2]
    simp only [interval_seconds, interval_maxlen,
      aggregate_pair_join 3600 t1 t2 p p hwin,
      aggregate_pair_join 43200 t1 t2 p p hwin12,
      aggregate_pair_join 86400 t1 t2 p p hwin1d]
    rw [update_interval_history_push_new 168 _ _ _ (by simp) hts (by simp),
        update_interval_history_push_new 60 _ _ _ (by simp) hts (by simp),
        update_interval_history_push_new 365 _ _ _ (by simp) hts (by simp)]
    simp [hp2]
  rw [hs1, hs2]
  simp [hp2]

theorem second_pass_appends_refined_entry_witness :
    (0 : ℕ) < 1 ∧ (1 : ℕ) - 0 < 3600 ∧
    (update_price_history (update_price_history emptyItemState 0 100) 1 100).hist1h
      = [⟨0, 100, 1⟩, ⟨1, 100, 2⟩] :=
  ⟨by decide, by decide,
    (second_pass_appends_refined_entry 0 1 100 (by decide) (by decide)).2.2.1⟩

/-- C8 counterexample: the buffer's last stored sample sits at `t = 0`
seconds and the new sample arrives at `t = 30` seconds — the same
minute-bucket — yet `add_raw_price_data` appends it, growing the buffer to
two entries, instead of replacing the last stored sample. -/
theorem same_minute_sample_is_appended :
    add_raw_price_data [⟨0, 100⟩] 30 110 = [⟨0, 100⟩, ⟨30, 110⟩] ∧
    minuteBucket 30 = minuteBucket 0 ∧
    ([(⟨0, 100⟩ : RawPoint), ⟨30, 110⟩] : List RawPoint).length ≠ 1 := by
  refine ⟨by decide, by decide, by decide⟩

/-- C8 amended: every ingested sample is appended to the item's raw buffer
unconditionally — there is no minute-bucket comparison and no replacement;
the only discipline is the deque's capacity 2880, which evicts the oldest
entries once exceeded. -/
theorem ingest_always_appends (buf : List RawPoint) (t p : ℕ)
    (h : buf.length < raw_capacity) :
    add_raw_price_data buf t p = buf ++ [⟨t, p⟩] :=
  dequePush_of_lt raw_capacity buf ⟨t, p⟩ (by unfold raw_capacity at *; omega)

theorem ingest_always_appends_witness :
    add_raw_price_data [⟨0, 100⟩] 30 110 = [⟨0, 100⟩] ++ [⟨30, 110⟩] :=
  ingest_always_appends [⟨0, 100⟩] 30 110 (by decide)

/-! ### Retention caps (claim C1) -/

theorem update_interval_history_length_le (cap : ℕ)
    (hist agg : List AggPoint) (h : hist.length ≤ cap) :
    (update_interval_history cap hist agg).length ≤ cap := by
  unfold update_interval_history
  cases agg.getLast? with
  | none => simpa
  | some latest =>
    dsimp only
    split
    · exact dequePush_length_le cap hist latest h
    · exact h

theorem update_price_history_capsOK (st : ItemState) (t p : ℕ)
    (h : st.capsOK) : (update_price_history st t p).capsOK := by
  obtain ⟨h1, h2, h3⟩ := h
  exact ⟨update_interval_history_length_le _ _ _ h1,
         update_interval_history_length_le _ _ _ h2,
         update_interval_history_length_le _ _ _ h3⟩

theorem update_total_price_history_capsOK (now : ℕ) (st : AggTotalState)
    (total_price valid_items : ℕ) (h : st.capsOK) :
    (update_total_price_history now st total_price valid_items).1.capsOK := by
  obtain ⟨h1, h2, h3⟩ := h
  unfold update_total_price_history
  split
  · exact ⟨h1, h2, h3⟩
  · refine ⟨?_, ?_, ?_⟩ <;> dsimp only <;> split
    · exact dequePush_length_le _ _ _ h1
    · exact h1
    · exact dequePush_length_le _ _ _ h2
    · exact h2
    · exact dequePush_length_le _ _ _ h3
    · exact h3

/-- C1 amended: per-item resolution series always stay within their
retention caps (168 / 60 / 365), as does each resolution's total series in
the total-price aggregator, both through its capped deques and through its
chart-appending path.  (The historical tracker's aggregated total series,
by contrast, is rebuilt uncapped from the 2880-entry raw deque — see the
counterexample.) -/
theorem series_lengths_within_caps :
    (∀ (inputs : List (ℕ × ℕ)) (st0 : ItemState), st0.capsOK →
      (inputs.foldl (fun st tp => update_price_history st tp.1 tp.2)
        st0).capsOK) ∧
    (∀ (runs : List (ℕ × ℕ × ℕ)) (st0 : AggTotalState), st0.capsOK →
      (runs.foldl
        (fun st r => (update_total_price_history r.1 st r.2.1 r.2.2).1)
        st0).capsOK) ∧
    (∀ (cap : ℕ) (chart : ChartData) (p : TotalPricePoint),
      (append_new_data_to_chart cap chart p).labels.length ≤ cap) := by
  refine ⟨?_, ?_, ?_⟩
  · intro inputs
    induction inputs with
    | nil => intro st0 h; exact h
    | cons tp rest ih =>
      intro st0 h
      exact ih _ (update_price_history_capsOK st0 tp.1 tp.2 h)
  · intro runs
    induction runs with
    | nil => intro st0 h; exact h
    | cons r rest ih =>
      intro st0 h
      exact ih _ (update_total_price_history_capsOK r.1 st0 r.2.1 r.2.2 h)
  · intro cap chart p
    simp only [append_new_data_to_chart]
    split <;> simp_all <;> omega

theorem series_lengths_within_caps_witness :
    emptyItemState.capsOK ∧
    (([(0, 100), (3700, 110)] : List (ℕ × ℕ)).foldl
      (fun st tp => update_price_history st tp.1 tp.2)
      emptyItemState).capsOK :=
  ⟨by unfold ItemState.capsOK; decide,
   series_lengths_within_caps.1 [(0, 100), (3700, 110)] emptyItemState
     (by unfold ItemState.capsOK; decide)⟩

set_option maxRecDepth 100000

/-- C1 counterexample: 61 runs of the historical tracker's total-price
update, each more than twelve hours after the previous one, leave the
persisted 12-hour total series (the chart data rebuilt by
`aggregate_total_price_for_interval`) with 61 entries, exceeding the
12-hour resolution's retention cap of 60 — no cap is applied on this
path. -/
theorem total_chart_series_exceeds_cap :
    ((List.range 61).foldl
        (fun st i => update_total_price_data (i * 43201) [100] st)
        emptyHistTotalState).hist12h.labels.length = 61 ∧
    interval_maxlen .twelveHour = 60 := by
  constructor
  · decide
  · rfl

theorem dequePush_getLast? (cap : ℕ) (xs : List α) (x : α) (h : 1 ≤ cap) :
    (dequePush cap xs x).getLast? = some x := by
  unfold dequePush
  split
  · next hc =>
    have hk : (xs ++ [x]).length - cap ≤ xs.length := by
      simp only [List.length_append, List.length_singleton]
      omega
    rw [List.drop_append_of_le_length hk]
    exact List.getLast?_concat _
  · exact List.getLast?_concat _

/-- C6 amended: when at least one price in the run is positive, the emitted
total point carries the sum of the valid prices, their count, and the floor
of sum divided by count — but it has no `min_price` or `max_price` fields
(neither script ever computes them); the aggregator's point construction
likewise carries only timestamp, total, floor-average and count. -/
theorem total_point_contents (t : ℕ) (prices : List ℕ)
    (st : HistTotalState) (h : prices.filter (fun p => 0 < p) ≠ []) :
    (update_total_price_data t prices st).total_price_raw_data.getLast? =
      some ⟨t, (prices.filter (fun p => 0 < p)).sum,
            (prices.filter (fun p => 0 < p)).sum /
              (prices.filter (fun p => 0 < p)).length,
            (prices.filter (fun p => 0 < p)).length⟩ ∧
    (∀ pt : TotalPricePoint, pt.fields.lookup "min_price" = none ∧
      pt.fields.lookup "max_price" = none) ∧
    (∀ now total_price valid_items : ℕ, 0 < valid_items →
      total_price_point now total_price valid_items =
        ⟨now, total_price, total_price / valid_items, valid_items⟩) := by
  refine ⟨?_, ?_, ?_⟩
  · unfold update_total_price_data
    rw [if_neg h]
    exact dequePush_getLast? raw_capacity _ _ (by unfold raw_capacity; omega)
  · intro pt
    exact ⟨rfl, rfl⟩
  · intro now total_price valid_items hv
    unfold total_price_point
    rw [if_pos hv]

theorem total_point_contents_witness :
    (update_total_price_data 0 [100000, 200000]
        emptyHistTotalState).total_price_raw_data.getLast? =
      some ⟨0, 300000, 150000, 2⟩ :=
  (total_point_contents 0 [100000, 200000] emptyHistTotalState (by decide)).1

/-- C6 counterexample: for the run with valid prices 100000 and 200000 the
claim requires the emitted TotalPoint to carry `min_price = 100000` and
`max_price = 200000`, but the point written by `update_total_price_data`
has no such fields at all — looking them up in its rendered dict yields
nothing, although the valid set's minimum and maximum are well defined. -/
theorem total_point_missing_min_max :
    (update_total_price_data 0 [100000, 200000]
        emptyHistTotalState).total_price_raw_data
      = [⟨0, 300000, 150000, 2⟩] ∧
    (TotalPricePoint.fields ⟨0, 300000, 150000, 2⟩).lookup "min_price"
      = none ∧
    (TotalPricePoint.fields ⟨0, 300000, 150000, 2⟩).lookup "max_price"
      = none ∧
    (([100000, 200000] : List ℕ).filter (fun p => 0 < p)).min?
      = some 100000 ∧
    (([100000, 200000] : List ℕ).filter (fun p => 0 < p)).max?
      = some 200000 := by
  refine ⟨by decide, rfl, rfl, by decide, by decide⟩

/-- C7: when no item yields a valid (positive) price in a run, no total
point is emitted and every total series is left unchanged: the historical
tracker returns before touching its raw deque or any chart data, and the
aggregator returns its state untouched with an empty update list. -/
theorem no_valid_prices_leaves_state_unchanged :
    (∀ (t : ℕ) (prices : List ℕ) (st : HistTotalState),
      prices.filter (fun p => 0 < p) = [] →
      update_total_price_data t prices st = st) ∧
    (∀ (now : ℕ) (st : AggTotalState) (total_price : ℕ),
      update_total_price_history now st total_price 0 = (st, [])) := by
  constructor
  · intro t prices st h
    unfold update_total_price_data
    rw [if_pos h]
  · intro now st total_price
    unfold update_total_price_history
    simp

theorem no_valid_prices_leaves_state_unchanged_witness :
    update_total_price_data 5 [0, 0] emptyHistTotalState
      = emptyHistTotalState :=
  no_valid_prices_leaves_state_unchanged.1 5 [0, 0] emptyHistTotalState
    (by decide)

/-- C4: for every non-empty batch of quotes, if the IQR-filtered normal
set is non-empty the selected price is its minimum with status NORMAL and
the excluded count is the number of outliers; if the normal set is empty,
the previous price is selected (FALLBACK_PREVIOUS) whenever it is present
(and truthy) and exceeds `minimum_price_threshold`, and otherwise the
median of all original quotes is selected (FALLBACK_MEDIAN). -/
theorem quote_selection_policy (prices : List ℕ) (prev : Option ℕ)
    (hne : prices ≠ []) :
    ((detect_outliers_iqr prices).2 ≠ [] →
      select_optimal_price prices prev =
        ((detect_outliers_iqr prices).2.min?, .normal) ∧
      select_excluded_count prices = (detect_outliers_iqr prices).1.length) ∧
    ((detect_outliers_iqr prices).2 = [] →
      (∀ pv, prev = some pv → pv ≠ 0 → minimum_price_threshold < pv →
        select_optimal_price prices prev = (some pv, .fallbackPrevious)) ∧
      ((∀ pv, prev = some pv → pv = 0 ∨ pv ≤ minimum_price_threshold) →
        select_optimal_price prices prev =
          (some (np_median prices), .fallbackMedian))) := by
  constructor
  · intro hn
    constructor
    · simp only [select_optimal_price]
      rw [if_neg hne, if_neg hn]
    · rfl
  · intro hz
    constructor
    · intro pv hpv hnz hth
      subst hpv
      simp only [select_optimal_price]
      rw [if_neg hne, if_pos hz, if_pos ⟨hnz, hth⟩]
    · intro hall
      cases prev with
      | none =>
        simp only [select_optimal_price]
        rw [if_neg hne, if_pos hz]
      | some pv =>
        have hc := hall pv rfl
        have hcond : ¬ (pv ≠ 0 ∧ minimum_price_threshold < pv) := by
          rcases hc with h0 | hle
          · exact fun hx => hx.1 h0
          · exact fun hx => absurd hx.2 (by omega)
        simp only [select_optimal_price]
        rw [if_neg hne, if_pos hz, if_neg hcond]

theorem quote_selection_policy_witness :
    select_optimal_price [50000, 51000, 52000, 53000, 9000000] none
      = (some 50000, PriceStatus.normal) ∧
    select_excluded_count [50000, 51000, 52000, 53000, 9000000] = 1 := by
  have h := (quote_selection_policy [50000, 51000, 52000, 53000, 9000000]
    none (by decide)).1 (by decide)
  constructor
  · rw [h.1]
    decide
  · rw [h.2]
    decide

theorem remove_relative_low_outliers_sublist (q : List ℕ) :
    (remove_relative_low_outliers q).Sublist q := by
  unfold remove_relative_low_outliers
  split
  · exact List.Sublist.refl q
  · split
    · exact List.filter_sublist q
    · exact List.Sublist.refl q

theorem remove_relative_high_outliers_sublist (q : List ℕ) :
    (remove_relative_high_outliers q).Sublist q := by
  unfold remove_relative_high_outliers
  split
  · exact List.Sublist.refl q
  · split
    · exact List.filter_sublist q
    · exact List.Sublist.refl q

theorem strict_iqr_filter_sublist (q : List ℕ) :
    (strict_iqr_filter q).Sublist q := by
  unfold strict_iqr_filter
  split
  · exact List.Sublist.refl q
  · split
    · exact List.Sublist.refl q
    · split
      · exact List.filter_sublist q
      · exact List.Sublist.refl q

theorem final_relative_check_sublist (q : List ℕ) :
    (final_relative_check q).Sublist q := by
  unfold final_relative_check
  split
  · exact List.Sublist.refl q
  · split
    · split
      · exact List.filter_sublist q
      · exact List.Sublist.refl q
    · exact List.Sublist.refl q

theorem remove_relative_low_outliers_three_le (q : List ℕ)
    (h : 4 ≤ q.length) : 3 ≤ (remove_relative_low_outliers q).length := by
  unfold remove_relative_low_outliers
  split
  · omega
  · split
    · next h3 => exact h3
    · omega

theorem remove_relative_high_outliers_three_le (q : List ℕ)
    (h : 3 ≤ q.length) : 3 ≤ (remove_relative_high_outliers q).length := by
  unfold remove_relative_high_outliers
  split
  · omega
  · split
    · next h3 => exact h3
    · omega

theorem strict_iqr_filter_three_le (q : List ℕ)
    (h : 3 ≤ q.length) : 3 ≤ (strict_iqr_filter q).length := by
  unfold strict_iqr_filter
  split
  · omega
  · split
    · omega
    · split
      · next h3 => exact h3
      · omega

theorem final_relative_check_three_le (q : List ℕ)
    (h : 3 ≤ q.length) : 3 ≤ (final_relative_check q).length := by
  unfold final_relative_check
  split
  · omega
  · split
    · split
      · next h3 => exact h3
      · omega
    · omega

/-- C10: on any batch of at least 4 prices, `advanced_outlier_removal`
returns an order-preserving sublist of its input with at least 3 elements,
and each of the four filtering stages returns its input unfiltered
whenever its filter would leave fewer than 3 prices. -/
theorem advanced_outlier_removal_bounds (prices : List ℕ)
    (h : 4 ≤ prices.length) :
    (advanced_outlier_removal prices).Sublist prices ∧
    3 ≤ (advanced_outlier_removal prices).length ∧
    (∀ q : List ℕ, (low_filtered q).length < 3 →
      remove_relative_low_outliers q = q) ∧
    (∀ q : List ℕ, (high_filtered q).length < 3 →
      remove_relative_high_outliers q = q) ∧
    (∀ q : List ℕ, (iqr_filtered q).length < 3 →
      strict_iqr_filter q = q) ∧
    (∀ q : List ℕ, (final_filtered q).length < 3 →
      final_relative_check q = q) := by
  have hchain : advanced_outlier_removal prices =
      final_relative_check (strict_iqr_filter
        (remove_relative_high_outliers
          (remove_relative_low_outliers prices))) := by
    unfold advanced_outlier_removal
    rw [if_neg (by omega)]
  refine ⟨?_, ?_, ?_, ?_, ?_, ?_⟩
  · rw [hchain]
    exact ((((final_relative_check_sublist _).trans
      (strict_iqr_filter_sublist _)).trans
      (remove_relative_high_outliers_sublist _)).trans
      (remove_relative_low_outliers_sublist _))
  · rw [hchain]
    exact final_relative_check_three_le _
      (strict_iqr_filter_three_le _
        (remove_relative_high_outliers_three_le _
          (remove_relative_low_outliers_three_le _ h)))
  · intro q hf
    unfold remove_relative_low_outliers
    split
    · rfl
    · rw [if_neg (by omega)]
  · intro q hf
    unfold remove_relative_high_outliers
    split
    · rfl
    · rw [if_neg (by omega)]
  · intro q hf
    unfold strict_iqr_filter
    split
    · rfl
    · split
      · rfl
      · rw [if_neg (by omega)]
  · intro q hf
    unfold final_relative_check
    split
    · rfl
    · split
      · rw [if_neg (by omega)]
      · rfl

theorem advanced_outlier_removal_bounds_witness :
    4 ≤ ([20000, 21000, 22000, 23000] : List ℕ).length ∧
    (advanced_outlier_removal [20000, 21000, 22000, 23000]).Sublist
      [20000, 21000, 22000, 23000] ∧
    3 ≤ (advanced_outlier_removal [20000, 21000, 22000, 23000]).length :=
  ⟨by decide,
   (advanced_outlier_removal_bounds [20000, 21000, 22000, 23000]
     (by decide)).1,
   (advanced_outlier_removal_bounds [20000, 21000, 22000, 23000]
     (by decide)).2.1⟩

/-- C9 counterexample: the historical tracker's aggregated-data load is
wrapped in a single `try` around the loop over the resolutions, so a
malformed 1-hour file aborts the whole step: the perfectly well-formed,
non-empty 12-hour file is never loaded — contradicting the claim that a
malformed series discards only itself and loading of all remaining series
proceeds. -/
theorem malformed_file_aborts_remaining_loads :
    load_aggregated_data
        ⟨.failed, .ok [("itemA", [⟨0, 100, 1⟩])], .ok []⟩
        emptyPriceHistory
      = emptyPriceHistory ∧
    ([("itemA", [(⟨0, 100, 1⟩ : AggPoint)])] :
      List (String × List AggPoint)) ≠ [] := by
  refine ⟨rfl, by decide⟩

/-- C9 amended: per-series isolation holds in the total-price aggregator's
loader — a failing file leaves only its own series at the initialized
value, and a well-formed file loads regardless of the other files — but in
the historical tracker's `load_aggregated_data` a raising file aborts the
loading of all later resolutions (only the raw-data and total-data loading
steps are isolated from it, by their own `try` blocks). -/
theorem loader_isolation (files : TotalFiles) (st : AggTotalState) :
    (files.f12h = .failed →
      (load_existing_total_price_history files st).t12h = st.t12h) ∧
    (∀ d, files.f1h = .ok d → d.filterMap id ≠ [] →
      (load_existing_total_price_history files st).t1h =
        dequeInit (interval_maxlen .oneHour) (d.filterMap id)) ∧
    (∀ (f2 f3 : FileRead (List (String × List AggPoint)))
       (ph : PriceHistory),
      load_aggregated_data ⟨.failed, f2, f3⟩ ph = ph) := by
  refine ⟨?_, ?_, ?_⟩
  · intro h
    unfold load_existing_total_price_history
    rw [h]
    rfl
  · intro d hd hne
    unfold load_existing_total_price_history
    rw [hd]
    unfold load_one_total_file
    dsimp only
    rw [if_neg hne]
  · intro f2 f3 ph
    rfl

theorem loader_isolation_witness :
    (load_existing_total_price_history
        ⟨.ok [some ⟨0, 300000, 150000, 2⟩], .failed, .missing⟩
        emptyAggTotalState).t1h = [⟨0, 300000, 150000, 2⟩] ∧
    (load_existing_total_price_history
        ⟨.ok [some ⟨0, 300000, 150000, 2⟩], .failed, .missing⟩
        emptyAggTotalState).t12h = [] := by
  have h := loader_isolation
    ⟨.ok [some ⟨0, 300000, 150000, 2⟩], .failed, .missing⟩
    emptyAggTotalState
  constructor
  · rw [h.2.1 [some ⟨0, 300000, 150000, 2⟩] rfl (by decide)]
    decide
  · rw [h.1 rfl]
    rfl

end MapleTracker
